import Mathlib

/-!
Verification of the MakhlukTunnel/Autoscipt relay (ws.py).

The development shallowly embeds the Python source: strings are lists of
characters, byte buffers are lists of naturals, stateful loops become step
functions over explicit state driven by a trace of environment events
(what select, recv, sendall and time.time returned at each iteration), and
Python exceptions become Option results threaded through the translation.
All definitions mirror ws.py line by line; comments name the source lines.
-/

set_option autoImplicit false

/-- Python strings are modelled as lists of characters. -/
abbrev Str := List Char

/-- Python str.lower (ASCII part, which is all the source ever feeds it). -/
def pyLower (s : Str) : Str := s.map Char.toLower

/-- Helper: does the second list start with the first (pattern, subject). -/
def isPre : Str → Str → Bool
  | [], _ => true
  | _ :: _, [] => false
  | p :: ps, c :: cs => (p == c) && isPre ps cs

/-- Python str.startswith. -/
def pyStartswith (s pat : Str) : Bool := isPre pat s

/-- Python membership test (the in operator) for one character. -/
def hasChar (s : Str) (c : Char) : Bool :=
  match s with
  | [] => false
  | x :: xs => (x == c) || hasChar xs c

/-- Split at the first occurrence of a nonempty separator:
Python s.split(sep, 1) when it finds an occurrence; none when the
separator does not occur (so that indexing the second part raises). -/
def splitOnce (sep : Str) : Str → Option (Str × Str)
  | [] => none
  | c :: cs =>
    if isPre sep (c :: cs) then some ([], List.drop sep.length (c :: cs))
    else
      match splitOnce sep cs with
      | none => none
      | some (a, b) => some (c :: a, b)

/-- Fuel-driven full split, Python s.split(sep) for a nonempty separator. -/
def pySplitFuel (sep : Str) : Nat → Str → List Str
  | 0, s => [s]
  | Nat.succ f, s =>
    match splitOnce sep s with
    | none => [s]
    | some (a, b) => a :: pySplitFuel sep f b

/-- Python str.split(sep) for a nonempty separator; the fuel
length s + 1 always suffices because each found separator consumes
at least one character of the remainder. -/
def pySplit (sep s : Str) : List Str := pySplitFuel sep (s.length + 1) s

/-- Python str.strip() (ASCII whitespace; the source only meets ASCII). -/
def pyStrip (s : Str) : Str :=
  ((s.dropWhile Char.isWhitespace).reverse.dropWhile Char.isWhitespace).reverse

/-- Decimal value of a digit list, most significant first. -/
def digitsToNat (l : List Char) : Nat :=
  l.foldl (fun a c => a * 10 + (c.toNat - 48)) 0

/-- Digit-group tail of the Python int grammar: digits with single
underscores allowed between digits. Accumulates the value read so far. -/
def digitsURest (acc : Nat) : List Char → Option Nat
  | [] => some acc
  | c :: rest =>
    if c == '_' then
      match rest with
      | [] => none
      | c2 :: r2 =>
        if c2.isDigit then digitsURest (acc * 10 + (c2.toNat - 48)) r2 else none
    else if c.isDigit then digitsURest (acc * 10 + (c.toNat - 48)) rest
    else none

/-- A full digit part of the Python int grammar: must begin with a digit. -/
def pyDigitsVal (l : List Char) : Option Nat :=
  match l with
  | [] => none
  | c :: rest => if c.isDigit then digitsURest (c.toNat - 48) rest else none

/-- Python int(string): strip whitespace, optional sign, digit part.
none models a ValueError. -/
def pyToInt (s : Str) : Option Int :=
  match pyStrip s with
  | [] => none
  | c :: rest =>
    if c == '-' then (pyDigitsVal rest).map (fun n => -(n : Int))
    else if c == '+' then (pyDigitsVal rest).map (fun n => (n : Int))
    else (pyDigitsVal (c :: rest)).map (fun n => (n : Int))

/-! ### The routing-header parser, ws.py lines 157-170 -/

/-- The CRLF separator used at ws.py line 160. -/
def crlf : Str := "\r\n".data

/-- The lowercased routing-header key with trailing colon (line 162). -/
def rhKey : Str := "x-real-host:".data

/-- The colon-space separator of line 163. -/
def colonSpace : Str := ": ".data

/-- Line 162: h.lower().startswith of the routing key. -/
def matchesRH (h : Str) : Bool := pyStartswith (pyLower h) rhKey

/-- The for-loop of ws.py lines 161-167 over the CRLF-split lines.
A none result is either the loop finishing with no matching line or an
exception inside the loop body (IndexError from indexing after a failed
split, ValueError from int) being caught by the bare except of line 168:
both make parse_headers produce (None, None). The first line matching
the routing key decides the whole result, because a matching line either
returns or raises. -/
def parseLoop (dp : Int) : List Str → Option (Str × Int)
  | [] => none
  | h :: rest =>
    if matchesRH h then
      match splitOnce colonSpace h with
      | none => none
      | some (_, tail) =>
        let host_port := pyStrip tail
        if hasChar host_port ':' then
          match splitOnce [':'] host_port with
          | none => none
          | some (host, port) =>
            match pyToInt port with
            | none => none
            | some p => some (host, p)
        else some (host_port, dp)
    else parseLoop dp rest

/-- ws.py parse_headers (lines 157-170). The argument is the result of
data.decode(): none when decoding raised (caught by the bare except).
dp is self.listening.port, the default-target port of the binding. -/
def parse_headers (decoded : Option Str) (dp : Int) : Option (Str × Int) :=
  match decoded with
  | none => none
  | some s => parseLoop dp (pySplit crlf s)

/-- ws.py run, lines 140-146: take the parsed target; a falsy host
(None from a failed parse, or the empty string) falls back to the
default target of the owning binding. -/
def resolve_target (decoded : Option Str) (dh : Str) (dp : Int) : Str × Int :=
  match parse_headers decoded dp with
  | none => (dh, dp)
  | some (h, p) => if h.isEmpty then (dh, dp) else (h, p)

/-! ### Configuration resolution, ws.py lines 43-72 -/

/-- ws.py class Binding (lines 26-29). -/
structure Binding where
  address : Str
  port : Int
deriving DecidableEq

/-- ws.py class Listening (lines 31-34): a default target. -/
structure Listening where
  host : Str
  port : Int
deriving DecidableEq

/-- ws.py line 6-7: the fixed default binding used when extending. -/
def defaultBinding : Binding := { address := "0.0.0.0".data, port := 8880 }

/-- ws.py line 8-9: the fixed default target used when extending. -/
def defaultListening : Listening := { host := "127.0.0.1".data, port := 22 }

/-- The while-loop at ws.py lines 62-63 and 68-69: append the fixed
default until the list length exceeds the index. -/
def padTo {α : Type} (d : α) (l : List α) (index : Nat) : List α :=
  l ++ List.replicate (index + 1 - l.length) d

/-- One iteration of the override loops (lines 61-64 and 67-70):
pad, then assign at the index. -/
def applyOverride {α : Type} (d : α) (l : List α) (ov : Nat × α) : List α :=
  (padTo d l ov.1).set ov.1 ov.2

/-- The full override loop over the command-line list. -/
def applyOverrides {α : Type} (d : α) (l : List α) (ovs : List (Nat × α)) : List α :=
  ovs.foldl (applyOverride d) l

/-- ws.py load_config (lines 43-72), restricted to the two lists the
claims are about: file-provided lists are the base, then the two
command-line override loops run. -/
def load_config (baseB : List Binding) (baseL : List Listening)
    (cmdB : List (Nat × Binding)) (cmdL : List (Nat × Listening)) :
    List Binding × List Listening :=
  (applyOverrides defaultBinding baseB cmdB,
   applyOverrides defaultListening baseL cmdL)

/-! ### The relay loop, ws.py tunnel (lines 179-241)

The loop is driven by what the environment produces at each iteration:
what select returned, what recv_into on each ready socket would yield,
whether each sendall succeeds, and the value of time.time(). One
TunnelEvent packages those per iteration; the loop body is a pure step
function over TunnelState. Bytes are naturals; the buffers client_mem
and target_mem only ever carry one chunk, so the state tracks the two
outbound byte streams directly. -/

/-- Result of one recv_into call on a ready socket: a chunk (empty list
models recv returning 0, the peer having closed), a BlockingIOError, or
any other exception. -/
inductive ReadRes
  | ok (b : List Nat)
  | wouldBlock
  | exn
deriving DecidableEq

/-- State of the relay loop: last_activity (line 189) plus the bytes so
far forwarded in each direction (the sendall calls of lines 216, 226). -/
structure TunnelState where
  lastActivity : Int
  sentToTarget : List Nat
  sentToClient : List Nat
deriving DecidableEq

/-- Environment of one iteration of the while loop: the select result of
line 199 (readiness of each socket in r, and whether w and e are
nonempty), time.time() of line 205, and the outcomes of the I/O calls
that would run this iteration. select returns ready sockets in the order
of the input list [client, target]. -/
structure TunnelEvent where
  now : Int
  eAny : Bool
  rClient : Bool
  rTarget : Bool
  wAny : Bool
  clientRead : ReadRes
  targetRead : ReadRes
  sendToTargetOk : Bool
  sendToClientOk : Bool
deriving DecidableEq

/-- How one arm of the for-loop of lines 210-230 ends: fall through to
the next ready socket, break out of the for-loop (the zero-read break of
lines 218 and 228), or raise to the enclosing try of line 198. -/
inductive ForRes
  | next (st : TunnelState)
  | brk (st : TunnelState)
  | exc (st : TunnelState)
deriving DecidableEq

/-- Lines 211-220: the client-ready arm. On data, last_activity is
updated (line 215) before sendall (line 216), so a failing sendall still
leaves it updated. recv returning 0 executes the break of line 218,
which only exits the for-loop. BlockingIOError continues (line 220). -/
def clientBranch (ev : TunnelEvent) (st : TunnelState) : ForRes :=
  match ev.clientRead with
  | ReadRes.ok b =>
    if b.isEmpty then ForRes.brk st
    else
      let st1 := { st with lastActivity := ev.now }
      if ev.sendToTargetOk then
        ForRes.next { st1 with sentToTarget := st1.sentToTarget ++ b }
      else ForRes.exc st1
  | ReadRes.wouldBlock => ForRes.next st
  | ReadRes.exn => ForRes.exc st

/-- Lines 221-230: the target-ready arm, symmetric to clientBranch. -/
def targetBranch (ev : TunnelEvent) (st : TunnelState) : ForRes :=
  match ev.targetRead with
  | ReadRes.ok b =>
    if b.isEmpty then ForRes.brk st
    else
      let st1 := { st with lastActivity := ev.now }
      if ev.sendToClientOk then
        ForRes.next { st1 with sentToClient := st1.sentToClient ++ b }
      else ForRes.exc st1
  | ReadRes.wouldBlock => ForRes.next st
  | ReadRes.exn => ForRes.exc st

/-- Result of one iteration of the while loop of line 197. -/
inductive StepRes
  | cont (st : TunnelState)
  | stop (error : Bool) (st : TunnelState)
deriving DecidableEq

/-- Lines 232-233: after the for-loop (reached normally or through the
inner break), exit the while loop when select signalled nothing readable
and nothing writable. -/
def afterFor (ev : TunnelEvent) (st : TunnelState) : StepRes :=
  if !ev.rClient && !ev.rTarget && !ev.wAny then StepRes.stop false st
  else StepRes.cont st

/-- One iteration of the while loop of ws.py lines 197-238:
line 201 error sockets (error outcome), line 206 idle-timeout check
(non-error outcome), then the for-loop over ready sockets, client first,
where an exception reaches the except of line 235 (error outcome) and a
break merely skips to the check of line 232. -/
def tunnelStep (timeout : Int) (st : TunnelState) (ev : TunnelEvent) : StepRes :=
  if ev.eAny then StepRes.stop true st
  else if ev.now - st.lastActivity > timeout then StepRes.stop false st
  else
    let fr :=
      match (if ev.rClient then clientBranch ev st else ForRes.next st) with
      | ForRes.exc st1 => ForRes.exc st1
      | ForRes.brk st1 => ForRes.brk st1
      | ForRes.next st1 =>
        if ev.rTarget then targetBranch ev st1 else ForRes.next st1
    match fr with
    | ForRes.exc st1 => StepRes.stop true st1
    | ForRes.brk st1 => afterFor ev st1
    | ForRes.next st1 => afterFor ev st1

/-- The whole while loop over a finite trace of iteration environments.
none in the second component means the events ran out with the loop
still running; some err means the loop exited with that error flag. -/
def tunnelRun (timeout : Int) : TunnelState → List TunnelEvent → TunnelState × Option Bool
  | st, [] => (st, none)
  | st, ev :: evs =>
    match tunnelStep timeout st ev with
    | StepRes.stop err st1 => (st1, some err)
    | StepRes.cont st1 => tunnelRun timeout st1 evs

/-! ### The session, ws.py ConnectionHandler.run and close (lines 126-155) -/

/-- The close attempts made by ConnectionHandler.close. -/
inductive CloseAct
  | client
  | target
deriving DecidableEq

/-- One socket close call: it performs the action and then possibly
raises. The Bool injects a failure of the close itself. -/
def closeCall (raises : Bool) (a : CloseAct) : List CloseAct × Option Unit :=
  ([a], if raises then some () else none)

/-- A try-except-pass around one statement: the actions happen, the
exception is swallowed. -/
def tryPass (r : List CloseAct × Option Unit) : List CloseAct := r.1

/-- ws.py close (lines 126-131): two independently guarded close calls,
so a failing first close never suppresses the second attempt, and
nothing propagates. -/
def closeFn (clientRaises targetRaises : Bool) : List CloseAct :=
  tryPass (closeCall clientRaises CloseAct.client) ++
  tryPass (closeCall targetRaises CloseAct.target)

/-- Outcome of the first client.recv of ws.py line 136: zero bytes,
a nonempty chunk carrying its decode result (none when data.decode()
would raise), or an exception from recv itself. -/
inductive FirstRead
  | empty
  | chunk (decoded : Option Str)
  | exn
deriving DecidableEq

/-- Everything the environment decides during one session: the first
read, whether connect_target succeeds (line 175), whether sending the
handshake response succeeds (line 149), time.time() at tunnel entry
(line 189), the relay-loop events, and whether each close call fails. -/
structure SessionScript where
  firstRead : FirstRead
  dialOk : Bool
  sendOk : Bool
  startTime : Int
  tunnelEvents : List TunnelEvent
  closeClientRaises : Bool
  closeTargetRaises : Bool

/-- Observable trace of one session. raised records whether an exception
escaped run to the caller. -/
structure SessionTrace where
  dialAttempts : List (Str × Int)
  handshakeSent : Bool
  tunnelEntered : Bool
  tunnelResult : Option (TunnelState × Option Bool)
  errorLogged : Bool
  closeActs : List CloseAct
  raised : Bool
deriving DecidableEq

/-- The try-block of ws.py run (lines 135-153), before except/finally:
returns the partial trace and whether an exception is propagating. -/
def sessionBody (dh : Str) (dp : Int) (timeout : Int) (sc : SessionScript) :
    SessionTrace × Bool :=
  match sc.firstRead with
  | FirstRead.exn =>
    ({ dialAttempts := [], handshakeSent := false, tunnelEntered := false,
       tunnelResult := none, errorLogged := false, closeActs := [],
       raised := false }, true)
  | FirstRead.empty =>
    ({ dialAttempts := [], handshakeSent := false, tunnelEntered := false,
       tunnelResult := none, errorLogged := false, closeActs := [],
       raised := false }, false)
  | FirstRead.chunk dec =>
    let t := resolve_target dec dh dp
    if sc.dialOk then
      if sc.sendOk then
        let tr := tunnelRun timeout
          { lastActivity := sc.startTime, sentToTarget := [], sentToClient := [] }
          sc.tunnelEvents
        ({ dialAttempts := [t], handshakeSent := true, tunnelEntered := true,
           tunnelResult := some tr, errorLogged := false,
           closeActs := if tr.2 = some true then
               closeFn sc.closeClientRaises sc.closeTargetRaises
             else [],
           raised := false }, false)
      else
        ({ dialAttempts := [t], handshakeSent := false, tunnelEntered := false,
           tunnelResult := none, errorLogged := false, closeActs := [],
           raised := false }, true)
    else
      ({ dialAttempts := [t], handshakeSent := false, tunnelEntered := false,
         tunnelResult := none, errorLogged := false, closeActs := [],
         raised := false }, true)

/-- ws.py run (lines 133-155): the try-body, then the except of line 152
(log, swallow), then the finally of line 154 calling close. The
tunnel-internal close of line 241 is already inside the body trace. -/
def sessionRun (dh : Str) (dp : Int) (timeout : Int) (sc : SessionScript) :
    SessionTrace :=
  let b := sessionBody dh dp timeout sc
  { b.1 with
    errorLogged := b.2,
    closeActs := b.1.closeActs ++ closeFn sc.closeClientRaises sc.closeTargetRaises,
    raised := false }

/-! ### Helper lemmas about the string primitives -/

/-- The routing-header name, lowercased, without the colon. -/
def xrhName : Str := "x-real-host".data

theorem rhKey_eq : rhKey = xrhName ++ [':'] := by decide

theorem isPre_append_same (a b c : Str) : isPre (a ++ b) (a ++ c) = isPre b c := by
  induction a with
  | nil => rfl
  | cons x xs ih => simp [isPre, ih]

theorem hasChar_append_cons (a b : Str) (c : Char) :
    hasChar (a ++ c :: b) c = true := by
  induction a with
  | nil => simp [hasChar]
  | cons x xs ih => simp [hasChar, ih]

theorem hasChar_eq_false (a : Str) (c : Char) (h : ∀ x ∈ a, x ≠ c) :
    hasChar a c = false := by
  induction a with
  | nil => rfl
  | cons x xs ih =>
    have hx : x ≠ c := h x (by simp)
    simp [hasChar, hx, ih fun y hy => h y (by simp [hy])]

theorem splitOnce_append (c0 : Char) (sepR a b : Str)
    (ha : ∀ x ∈ a, x ≠ c0) (hb : isPre (c0 :: sepR) b = true) :
    splitOnce (c0 :: sepR) (a ++ b) = some (a, b.drop (sepR.length + 1)) := by
  induction a with
  | nil =>
    cases b with
    | nil => simp [isPre] at hb
    | cons y ys =>
      simp only [List.nil_append, splitOnce, hb, if_pos]
      rfl
  | cons x xs ih =>
    have hx : x ≠ c0 := ha x (by simp)
    have hbeq : (c0 == x) = false := beq_eq_false_iff_ne.mpr fun h => hx h.symm
    have hpre : isPre (c0 :: sepR) (x :: (xs ++ b)) = false := by
      simp [isPre, hbeq]
    simp only [List.cons_append, splitOnce, hpre, Bool.false_eq_true, if_false,
      List.append_eq]
    rw [ih fun y hy => ha y (by simp [hy])]

theorem dropWhile_no_ws (s : Str) (h : ∀ c ∈ s, c.isWhitespace = false) :
    s.dropWhile Char.isWhitespace = s := by
  cases s with
  | nil => rfl
  | cons x xs => simp [List.dropWhile_cons, h x (by simp)]

theorem pyStrip_id (s : Str) (h : ∀ c ∈ s, c.isWhitespace = false) :
    pyStrip s = s := by
  unfold pyStrip
  rw [dropWhile_no_ws s h]
  rw [dropWhile_no_ws s.reverse fun c hc => h c (List.mem_reverse.mp hc)]
  exact List.reverse_reverse s

theorem isDigit_not_ws (c : Char) (h : c.isDigit = true) :
    c.isWhitespace = false := by
  cases hws : c.isWhitespace with
  | false => rfl
  | true =>
    have hd : ((c = ' ' ∨ c = '\t') ∨ c = '\r') ∨ c = '\n' := by
      simpa [Char.isWhitespace] using hws
    rcases hd with ((h1 | h1) | h1) | h1 <;> subst h1 <;> exact absurd h (by decide)

theorem digitsURest_digits (l : List Char) :
    ∀ acc, (∀ c ∈ l, c.isDigit = true) →
    digitsURest acc l = some (l.foldl (fun a c => a * 10 + (c.toNat - 48)) acc) := by
  induction l with
  | nil => intro acc _; rfl
  | cons c rest ih =>
    intro acc h
    have hc : c.isDigit = true := h c (by simp)
    have hne : (c == '_') = false := by
      apply beq_eq_false_iff_ne.mpr
      intro he
      subst he
      exact absurd hc (by decide)
    have step : digitsURest acc (c :: rest)
        = digitsURest (acc * 10 + (c.toNat - 48)) rest := by
      conv_lhs => unfold digitsURest
      simp [hne, hc]
    rw [step, List.foldl_cons]
    exact ih _ fun y hy => h y (by simp [hy])

theorem pyDigitsVal_digits (l : List Char) (hne : l ≠ [])
    (h : ∀ c ∈ l, c.isDigit = true) : pyDigitsVal l = some (digitsToNat l) := by
  cases l with
  | nil => exact absurd rfl hne
  | cons c rest =>
    have hc := h c (by simp)
    simp only [pyDigitsVal, hc, if_true]
    unfold digitsToNat
    simp only [List.foldl_cons, Nat.zero_mul, Nat.zero_add]
    exact digitsURest_digits rest _ fun y hy => h y (by simp [hy])

theorem pyToInt_digits (l : List Char) (hne : l ≠ [])
    (h : ∀ c ∈ l, c.isDigit = true) : pyToInt l = some ((digitsToNat l : Int)) := by
  have hs : pyStrip l = l := pyStrip_id l fun c hc => isDigit_not_ws c (h c hc)
  unfold pyToInt
  rw [hs]
  cases l with
  | nil => exact absurd rfl hne
  | cons c rest =>
    have hc := h c (by simp)
    have hm : (c == '-') = false := by
      apply beq_eq_false_iff_ne.mpr
      intro he
      subst he
      exact absurd hc (by decide)
    have hp : (c == '+') = false := by
      apply beq_eq_false_iff_ne.mpr
      intro he
      subst he
      exact absurd hc (by decide)
    simp only [hm, hp, Bool.false_eq_true, if_false]
    rw [pyDigitsVal_digits (c :: rest) (by simp) h]
    rfl

theorem parseLoop_skip (dp : Int) (pre rest : List Str)
    (h : ∀ l ∈ pre, matchesRH l = false) :
    parseLoop dp (pre ++ rest) = parseLoop dp rest := by
  induction pre with
  | nil => rfl
  | cons x xs ih =>
    have hx := h x (by simp)
    simp only [List.cons_append, parseLoop, hx, Bool.false_eq_true, if_false]
    exact ih fun y hy => h y (by simp [hy])

theorem parseLoop_nonmatch (dp : Int) (ls : List Str)
    (h : ∀ l ∈ ls, matchesRH l = false) : parseLoop dp ls = none := by
  have h2 := parseLoop_skip dp ls [] h
  simpa using h2

theorem matchesRH_header (name v : Str) (hname : pyLower name = xrhName) :
    matchesRH (name ++ ':' :: ' ' :: v) = true := by
  unfold matchesRH pyStartswith
  unfold pyLower at hname ⊢
  rw [List.map_append, List.map_cons, List.map_cons]
  have h1 : Char.toLower ':' = ':' := by decide
  have h2 : Char.toLower ' ' = ' ' := by decide
  rw [h1, h2, hname, rhKey_eq, isPre_append_same]
  simp [isPre]

theorem name_no_colon (name : Str) (hname : pyLower name = xrhName) :
    ∀ x ∈ name, x ≠ ':' := by
  intro x hx he
  subst he
  have hmem : Char.toLower ':' ∈ pyLower name := List.mem_map_of_mem _ hx
  rw [hname] at hmem
  exact absurd hmem (by decide)

theorem colonSpace_eq : colonSpace = ':' :: [' '] := by decide

theorem parseLoop_hostport (dp : Int) (name host portStr : Str) (rest : List Str)
    (hname : pyLower name = xrhName)
    (hhost : ∀ c ∈ host, c ≠ ':' ∧ c.isWhitespace = false)
    (hpne : portStr ≠ [])
    (hpd : ∀ c ∈ portStr, c.isDigit = true) :
    parseLoop dp ((name ++ ':' :: ' ' :: (host ++ ':' :: portStr)) :: rest)
      = some (host, (digitsToNat portStr : Int)) := by
  have hm := matchesRH_header name (host ++ ':' :: portStr) hname
  have hsplit1 : splitOnce colonSpace (name ++ ':' :: ' ' :: (host ++ ':' :: portStr))
      = some (name, host ++ ':' :: portStr) := by
    rw [colonSpace_eq]
    have hs := splitOnce_append ':' [' '] name (':' :: ' ' :: (host ++ ':' :: portStr))
      (name_no_colon name hname) (by simp [isPre])
    simpa using hs
  have hws : ∀ c ∈ host ++ ':' :: portStr, c.isWhitespace = false := by
    intro c hc
    rcases List.mem_append.mp hc with h1 | h1
    · exact (hhost c h1).2
    · rcases List.mem_cons.mp h1 with h2 | h2
      · subst h2; decide
      · exact isDigit_not_ws c (hpd c h2)
  have hsplit2 : splitOnce [':'] (host ++ ':' :: portStr) = some (host, portStr) := by
    have hs := splitOnce_append ':' [] host (':' :: portStr)
      (fun x hx => (hhost x hx).1) (by simp [isPre])
    simpa using hs
  simp only [parseLoop, hm, if_true, hsplit1, pyStrip_id _ hws,
    hasChar_append_cons, if_true, hsplit2, pyToInt_digits portStr hpne hpd]

theorem parseLoop_portless (dp : Int) (name host : Str) (rest : List Str)
    (hname : pyLower name = xrhName)
    (hhost : ∀ c ∈ host, c ≠ ':' ∧ c.isWhitespace = false) :
    parseLoop dp ((name ++ ':' :: ' ' :: host) :: rest) = some (host, dp) := by
  have hm := matchesRH_header name host hname
  have hsplit1 : splitOnce colonSpace (name ++ ':' :: ' ' :: host)
      = some (name, host) := by
    rw [colonSpace_eq]
    have hs := splitOnce_append ':' [' '] name (':' :: ' ' :: host)
      (name_no_colon name hname) (by simp [isPre])
    simpa using hs
  have hnc : hasChar host ':' = false :=
    hasChar_eq_false host ':' fun c hc => (hhost c hc).1
  simp only [parseLoop, hm, if_true, hsplit1,
    pyStrip_id host fun c hc => (hhost c hc).2, hnc, Bool.false_eq_true, if_false]

/-! ### Helper lemmas about list indexing, for the override semantics -/

theorem replicate_get? {α : Type} (d : α) :
    ∀ (k j : Nat), j < k → (List.replicate k d).get? j = some d := by
  intro k
  induction k with
  | zero => intro j h; omega
  | succ n ih =>
    intro j h
    cases j with
    | zero => rfl
    | succ m => exact ih m (by omega)

theorem set_get?_self {α : Type} (v : α) :
    ∀ (l : List α) (i : Nat), i < l.length → (l.set i v).get? i = some v := by
  intro l
  induction l with
  | nil => intro i h; simp at h
  | cons x xs ih =>
    intro i h
    cases i with
    | zero => rfl
    | succ m => exact ih m (by simpa using h)

theorem set_get?_ne {α : Type} (v : α) :
    ∀ (l : List α) (i j : Nat), i ≠ j → (l.set i v).get? j = l.get? j := by
  intro l
  induction l with
  | nil => intro i j _; simp
  | cons x xs ih =>
    intro i j hne
    cases i with
    | zero =>
      cases j with
      | zero => exact absurd rfl hne
      | succ m => rfl
    | succ n =>
      cases j with
      | zero => rfl
      | succ m => exact ih n m fun h => hne (by rw [h])

theorem applyOverride_spec {α : Type} (d : α) (base : List α) (i : Nat) (v : α) :
    (applyOverride d base (i, v)).length = max base.length (i + 1) ∧
    (applyOverride d base (i, v)).get? i = some v ∧
    (∀ j, j ≠ i → j < base.length → (applyOverride d base (i, v)).get? j = base.get? j) ∧
    (∀ j, base.length ≤ j → j < i → (applyOverride d base (i, v)).get? j = some d) := by
  have hlen : (padTo d base i).length = max base.length (i + 1) := by
    simp only [padTo, List.length_append, List.length_replicate]
    omega
  refine ⟨?_, ?_, ?_, ?_⟩
  · simp only [applyOverride, List.length_set]
    exact hlen
  · unfold applyOverride
    apply set_get?_self
    show i < (padTo d base i).length
    rw [hlen]
    omega
  · intro j hj hjb
    unfold applyOverride
    rw [set_get?_ne v _ i j fun h => hj h.symm]
    unfold padTo
    exact List.get?_append hjb
  · intro j hjb hji
    unfold applyOverride
    rw [set_get?_ne v _ i j (by omega)]
    unfold padTo
    rw [List.get?_append_right hjb]
    exact replicate_get? d _ _ (by omega)

/-! ### Helper lemmas about the relay loop -/

theorem tunnelRun_cons (timeout : Int) (st : TunnelState) (ev : TunnelEvent)
    (evs : List TunnelEvent) :
    tunnelRun timeout st (ev :: evs) =
      match tunnelStep timeout st ev with
      | StepRes.stop err st1 => (st1, some err)
      | StepRes.cont st1 => tunnelRun timeout st1 evs := rfl

theorem tunnelRun_append (timeout : Int) :
    ∀ (pre : List TunnelEvent) (st st1 : TunnelState) (suf : List TunnelEvent),
    tunnelRun timeout st pre = (st1, none) →
    tunnelRun timeout st (pre ++ suf) = tunnelRun timeout st1 suf := by
  intro pre
  induction pre with
  | nil =>
    intro st st1 suf h
    have h2 : st = st1 := congrArg Prod.fst h
    rw [List.nil_append, h2]
  | cons ev evs ih =>
    intro st st1 suf h
    rw [List.cons_append, tunnelRun_cons]
    rw [tunnelRun_cons] at h
    cases hstep : tunnelStep timeout st ev with
    | stop err st2 =>
      rw [hstep] at h
      exact absurd (congrArg Prod.snd h) (by simp)
    | cont st2 =>
      rw [hstep] at h
      exact ih st2 st1 suf h

theorem step_forward_client (timeout : Int) (st : TunnelState) (ev : TunnelEvent)
    (b : List Nat)
    (he : ev.eAny = false)
    (ht : ¬ (ev.now - st.lastActivity > timeout))
    (hrc : ev.rClient = true)
    (hrt : ev.rTarget = false)
    (hread : ev.clientRead = ReadRes.ok b)
    (hne : b ≠ [])
    (hsend : ev.sendToTargetOk = true) :
    tunnelStep timeout st ev = StepRes.cont
      { lastActivity := ev.now, sentToTarget := st.sentToTarget ++ b,
        sentToClient := st.sentToClient } := by
  have hbe : b.isEmpty = false := by
    cases b with
    | nil => exact absurd rfl hne
    | cons x xs => rfl
  simp [tunnelStep, clientBranch, afterFor, he, ht, hrc, hrt, hread, hbe, hsend]

theorem step_forward_target (timeout : Int) (st : TunnelState) (ev : TunnelEvent)
    (b : List Nat)
    (he : ev.eAny = false)
    (ht : ¬ (ev.now - st.lastActivity > timeout))
    (hrc : ev.rClient = false)
    (hrt : ev.rTarget = true)
    (hread : ev.targetRead = ReadRes.ok b)
    (hne : b ≠ [])
    (hsend : ev.sendToClientOk = true) :
    tunnelStep timeout st ev = StepRes.cont
      { lastActivity := ev.now, sentToTarget := st.sentToTarget,
        sentToClient := st.sentToClient ++ b } := by
  have hbe : b.isEmpty = false := by
    cases b with
    | nil => exact absurd rfl hne
    | cons x xs => rfl
  simp [tunnelStep, targetBranch, afterFor, he, ht, hrc, hrt, hread, hbe, hsend]

/-! ### Claim theorems -/

/-- The relay-loop iteration environment in which select reports the
client socket read-ready and recv returns zero bytes (peer closed its
write side), with no error condition and no timeout elapsed. -/
def zeroReadEv : TunnelEvent :=
  { now := 1, eAny := false, rClient := true, rTarget := false, wAny := false,
    clientRead := ReadRes.ok [], targetRead := ReadRes.ok [],
    sendToTargetOk := true, sendToClientOk := true }

/-- The relay-loop state at engine start. -/
def tunnelStart : TunnelState :=
  { lastActivity := 0, sentToTarget := [], sentToClient := [] }

/-- Claim C1 is false of the code: a zero-byte read on a read-ready
endpoint does not terminate the relay loop. The break at ws.py line 218
(and 228) only exits the inner for-loop over ready sockets, so the while
loop continues: after one, and even three, zero-read iterations the loop
is still running, and it finally exits only when a later iteration sees
the idle timeout exceeded (a timeout outcome, error = false), exactly
the further condition the claim says is not required. -/
theorem c1_zero_read_relay_continues :
    tunnelStep 60 tunnelStart zeroReadEv = StepRes.cont tunnelStart ∧
    tunnelRun 60 tunnelStart [zeroReadEv, zeroReadEv, zeroReadEv]
      = (tunnelStart, none) ∧
    tunnelRun 60 tunnelStart [zeroReadEv, { zeroReadEv with now := 61 }]
      = (tunnelStart, some false) := by
  refine ⟨rfl, rfl, rfl⟩

/-- Claim C2: target resolution from the first inbound chunk. A first
matching routing-header line (case-insensitive name) of the form
host:port resolves to that host and numeric port; a matching line with
a bare host resolves to that host with the DefaultTarget port; and a
chunk whose lines never match the routing key resolves to the
DefaultTarget host and port. -/
theorem c2_target_resolution (dh : Str) (dp : Int) :
    (∀ (s : Str) (pre post : List Str) (name host portStr : Str),
      pySplit crlf s = pre ++ (name ++ ':' :: ' ' :: (host ++ ':' :: portStr)) :: post →
      (∀ l ∈ pre, matchesRH l = false) →
      pyLower name = xrhName →
      host ≠ [] →
      (∀ c ∈ host, c ≠ ':' ∧ c.isWhitespace = false) →
      portStr ≠ [] →
      (∀ c ∈ portStr, c.isDigit = true) →
      resolve_target (some s) dh dp = (host, (digitsToNat portStr : Int))) ∧
    (∀ (s : Str) (pre post : List Str) (name host : Str),
      pySplit crlf s = pre ++ (name ++ ':' :: ' ' :: host) :: post →
      (∀ l ∈ pre, matchesRH l = false) →
      pyLower name = xrhName →
      host ≠ [] →
      (∀ c ∈ host, c ≠ ':' ∧ c.isWhitespace = false) →
      resolve_target (some s) dh dp = (host, dp)) ∧
    (∀ (s : Str),
      (∀ l ∈ pySplit crlf s, matchesRH l = false) →
      resolve_target (some s) dh dp = (dh, dp)) := by
  refine ⟨?_, ?_, ?_⟩
  · intro s pre post name host portStr hsplit hpre hname hhne hhost hpne hpd
    have hemp : host.isEmpty = false := by
      cases host with
      | nil => exact absurd rfl hhne
      | cons x xs => rfl
    simp only [resolve_target, parse_headers]
    rw [hsplit, parseLoop_skip dp pre _ hpre,
      parseLoop_hostport dp name host portStr post hname hhost hpne hpd]
    simp [hemp]
  · intro s pre post name host hsplit hpre hname hhne hhost
    have hemp : host.isEmpty = false := by
      cases host with
      | nil => exact absurd rfl hhne
      | cons x xs => rfl
    simp only [resolve_target, parse_headers]
    rw [hsplit, parseLoop_skip dp pre _ hpre,
      parseLoop_portless dp name host post hname hhost]
    simp [hemp]
  · intro s hall
    simp only [resolve_target, parse_headers]
    rw [parseLoop_nonmatch dp _ hall]

theorem c2_target_resolution_witness :
    resolve_target
        (some "GET / HTTP/1.1\r\nX-Real-Host: example.org:2222\r\nUser: x".data)
        "10.0.0.5".data 22
      = ("example.org".data, 2222) ∧
    resolve_target
        (some "GET / HTTP/1.1\r\nx-REAL-hOst: example.org\r\nUser: x".data)
        "10.0.0.5".data 22
      = ("example.org".data, 22) ∧
    resolve_target (some "GET / HTTP/1.1\r\nHost: a\r\n\r\n".data)
        "10.0.0.5".data 22
      = ("10.0.0.5".data, 22) := by
  refine ⟨?_, ?_, ?_⟩
  · exact (c2_target_resolution "10.0.0.5".data 22).1
      "GET / HTTP/1.1\r\nX-Real-Host: example.org:2222\r\nUser: x".data
      ["GET / HTTP/1.1".data] ["User: x".data]
      "X-Real-Host".data "example.org".data "2222".data
      (by rfl) (by decide) (by decide) (by decide) (by decide) (by decide) (by decide)
  · exact (c2_target_resolution "10.0.0.5".data 22).2.1
      "GET / HTTP/1.1\r\nx-REAL-hOst: example.org\r\nUser: x".data
      ["GET / HTTP/1.1".data] ["User: x".data]
      "x-REAL-hOst".data "example.org".data
      (by rfl) (by decide) (by decide) (by decide) (by decide)
  · exact (c2_target_resolution "10.0.0.5".data 22).2.2
      "GET / HTTP/1.1\r\nHost: a\r\n\r\n".data (by decide)

/-- Claim C7: routing-directive extraction is total and best-effort.
A decode failure yields the DefaultTarget; a parse producing no
directive yields the DefaultTarget; a first matching line without the
colon-space separator aborts extraction with no directive (the caught
IndexError); and a first matching line whose port part int() rejects
aborts extraction with no directive (the caught ValueError). -/
theorem c7_extraction_never_fails (dh : Str) (dp : Int) :
    (resolve_target none dh dp = (dh, dp)) ∧
    (∀ s : Str, parse_headers (some s) dp = none →
      resolve_target (some s) dh dp = (dh, dp)) ∧
    (∀ (pre post : List Str) (line : Str),
      (∀ l ∈ pre, matchesRH l = false) →
      matchesRH line = true →
      splitOnce colonSpace line = none →
      parseLoop dp (pre ++ line :: post) = none) ∧
    (∀ (pre post : List Str) (line nm tail hst prt : Str),
      (∀ l ∈ pre, matchesRH l = false) →
      matchesRH line = true →
      splitOnce colonSpace line = some (nm, tail) →
      hasChar (pyStrip tail) ':' = true →
      splitOnce [':'] (pyStrip tail) = some (hst, prt) →
      pyToInt prt = none →
      parseLoop dp (pre ++ line :: post) = none) := by
  refine ⟨rfl, ?_, ?_, ?_⟩
  · intro s h
    simp only [resolve_target, h]
  · intro pre post line hpre hm hsp
    rw [parseLoop_skip dp pre _ hpre]
    simp only [parseLoop, hm, if_true, hsp]
  · intro pre post line nm tail hst prt hpre hm hsp hch hsp2 hint
    rw [parseLoop_skip dp pre _ hpre]
    simp only [parseLoop, hm, if_true, hsp, hch, hsp2, hint]

theorem c7_extraction_never_fails_witness :
    resolve_target (some "X-Real-Host ohne Doppelpunkt".data) "10.0.0.6".data 22
      = ("10.0.0.6".data, 22) ∧
    parseLoop 22 (["A: b".data] ++ "X-Real-Host:nospace:99".data :: ["C: d".data])
      = none ∧
    parseLoop 22 (["A: b".data] ++ "X-Real-Host: h:xx".data :: ["C: d".data])
      = none := by
  refine ⟨?_, ?_, ?_⟩
  · exact (c7_extraction_never_fails "10.0.0.6".data 22).2.1
      "X-Real-Host ohne Doppelpunkt".data (by decide)
  · exact (c7_extraction_never_fails "10.0.0.6".data 22).2.2.1
      ["A: b".data] ["C: d".data] "X-Real-Host:nospace:99".data
      (by decide) (by decide) (by decide)
  · exact (c7_extraction_never_fails "10.0.0.6".data 22).2.2.2
      ["A: b".data] ["C: d".data] "X-Real-Host: h:xx".data
      "X-Real-Host".data "h:xx".data "h".data "xx".data
      (by decide) (by decide) (by decide) (by decide) (by decide) (by decide)

/-- Claim C10: the first line matching the routing key decides the
extraction outcome alone; in particular, when that line lacks the
colon-space separator the whole extraction yields no directive, and any
later matching lines are never consulted. -/
theorem c10_first_match_decides (dp : Int) :
    (∀ (pre post : List Str) (line : Str),
      (∀ l ∈ pre, matchesRH l = false) →
      matchesRH line = true →
      parseLoop dp (pre ++ line :: post) = parseLoop dp [line]) ∧
    (∀ (pre post : List Str) (line : Str),
      (∀ l ∈ pre, matchesRH l = false) →
      matchesRH line = true →
      splitOnce colonSpace line = none →
      parseLoop dp (pre ++ line :: post) = none) := by
  constructor
  · intro pre post line hpre hm
    rw [parseLoop_skip dp pre _ hpre]
    simp only [parseLoop, hm, if_true]
  · intro pre post line hpre hm hsp
    rw [parseLoop_skip dp pre _ hpre]
    simp only [parseLoop, hm, if_true, hsp]

theorem c10_first_match_decides_witness :
    parseLoop 22 (["GET /".data] ++ "x-real-host:malformed".data ::
        ["X-Real-Host: good.example:7".data]) = none ∧
    parseLoop 22 ([] ++ "X-Real-Host: a:5".data :: ["X-Real-Host: z:9".data])
      = parseLoop 22 ["X-Real-Host: a:5".data] := by
  constructor
  · exact (c10_first_match_decides 22).2
      ["GET /".data] ["X-Real-Host: good.example:7".data]
      "x-real-host:malformed".data (by decide) (by decide) (by decide)
  · exact (c10_first_match_decides 22).1
      [] ["X-Real-Host: z:9".data] "X-Real-Host: a:5".data
      (by decide) (by decide)

/-- Claim C3: command-line override semantics for bindings and targets.
An override at index i lands at index i; a shorter base list is first
extended up to index i with the fixed default entries; indices below i
that came from the base keep their base value, and padded indices keep
the default; and the concrete check of the spec: a base target list of
length one with an override at index two gives a three-entry list whose
middle entry is the fixed default. -/
theorem c3_override_semantics :
    (∀ (base : List Binding) (i : Nat) (v : Binding),
      ((load_config base [] [(i, v)] []).1.length = max base.length (i + 1)) ∧
      ((load_config base [] [(i, v)] []).1.get? i = some v) ∧
      (∀ j, j < i → j < base.length →
        (load_config base [] [(i, v)] []).1.get? j = base.get? j) ∧
      (∀ j, base.length ≤ j → j < i →
        (load_config base [] [(i, v)] []).1.get? j = some defaultBinding)) ∧
    (∀ (base : List Listening) (i : Nat) (v : Listening),
      ((load_config [] base [] [(i, v)]).2.length = max base.length (i + 1)) ∧
      ((load_config [] base [] [(i, v)]).2.get? i = some v) ∧
      (∀ j, j < i → j < base.length →
        (load_config [] base [] [(i, v)]).2.get? j = base.get? j) ∧
      (∀ j, base.length ≤ j → j < i →
        (load_config [] base [] [(i, v)]).2.get? j = some defaultListening)) ∧
    (∀ (l0 v : Listening),
      (load_config [] [l0] [] [(2, v)]).2 = [l0, defaultListening, v]) := by
  refine ⟨?_, ?_, ?_⟩
  · intro base i v
    have hs := applyOverride_spec defaultBinding base i v
    exact ⟨hs.1, hs.2.1,
      fun j hj hjb => hs.2.2.1 j (by omega) hjb,
      fun j hjb hji => hs.2.2.2 j hjb hji⟩
  · intro base i v
    have hs := applyOverride_spec defaultListening base i v
    exact ⟨hs.1, hs.2.1,
      fun j hj hjb => hs.2.2.1 j (by omega) hjb,
      fun j hjb hji => hs.2.2.2 j hjb hji⟩
  · intro l0 v
    rfl

theorem c3_override_semantics_witness :
    ((load_config [defaultBinding] [] [(2, { address := "1.2.3.4".data, port := 80 })] []).1.length
      = max 1 3) ∧
    ((load_config [defaultBinding] [] [(2, { address := "1.2.3.4".data, port := 80 })] []).1.get? 2
      = some { address := "1.2.3.4".data, port := 80 }) ∧
    ((load_config [defaultBinding] [] [(2, { address := "1.2.3.4".data, port := 80 })] []).1.get? 1
      = some defaultBinding) ∧
    ((load_config [] [{ host := "h".data, port := 1 }] [] [(2, { host := "k".data, port := 9 })]).2
      = [{ host := "h".data, port := 1 }, defaultListening, { host := "k".data, port := 9 }]) := by
  refine ⟨?_, ?_, ?_, ?_⟩
  · exact (c3_override_semantics.1 [defaultBinding] 2
      { address := "1.2.3.4".data, port := 80 }).1
  · exact (c3_override_semantics.1 [defaultBinding] 2
      { address := "1.2.3.4".data, port := 80 }).2.1
  · exact (c3_override_semantics.1 [defaultBinding] 2
      { address := "1.2.3.4".data, port := 80 }).2.2.2 1 (by decide) (by decide)
  · exact c3_override_semantics.2.2 { host := "h".data, port := 1 }
      { host := "k".data, port := 9 }

/-- Claim C4: whenever a relay iteration happens with no socket error
condition and the clock past lastActivity plus the idle timeout, the
relay loop stops there with the timeout outcome (error flag false), for
any session history leading up to that iteration; and in every session
both close attempts follow the end of the relay. -/
theorem c4_idle_timeout (timeout : Int) :
    (∀ (st st1 : TunnelState) (pre : List TunnelEvent)
       (ev : TunnelEvent) (suf : List TunnelEvent),
      tunnelRun timeout st pre = (st1, none) →
      ev.eAny = false →
      ev.now - st1.lastActivity > timeout →
      tunnelRun timeout st (pre ++ ev :: suf) = (st1, some false)) ∧
    (∀ (dh : Str) (dp : Int) (sc : SessionScript),
      CloseAct.client ∈ (sessionRun dh dp timeout sc).closeActs ∧
      CloseAct.target ∈ (sessionRun dh dp timeout sc).closeActs) := by
  constructor
  · intro st st1 pre ev suf hpre he hgt
    rw [tunnelRun_append timeout pre st st1 (ev :: suf) hpre, tunnelRun_cons]
    have hstep : tunnelStep timeout st1 ev = StepRes.stop false st1 := by
      unfold tunnelStep
      rw [he]
      simp only [Bool.false_eq_true, if_false]
      rw [if_pos hgt]
    rw [hstep]
  · intro dh dp sc
    constructor
    · simp [sessionRun, closeFn, tryPass, closeCall]
    · simp [sessionRun, closeFn, tryPass, closeCall]

theorem c4_idle_timeout_witness :
    tunnelRun 60 tunnelStart
        ([] ++ { zeroReadEv with now := 61, rClient := false } :: [])
      = (tunnelStart, some false) ∧
    CloseAct.client ∈ (sessionRun "127.0.0.1".data 22 60
      { firstRead := FirstRead.empty, dialOk := true, sendOk := true,
        startTime := 0, tunnelEvents := [], closeClientRaises := true,
        closeTargetRaises := false }).closeActs := by
  constructor
  · exact (c4_idle_timeout 60).1 tunnelStart tunnelStart []
      { zeroReadEv with now := 61, rClient := false } [] rfl rfl (by decide)
  · exact ((c4_idle_timeout 60).2 "127.0.0.1".data 22
      { firstRead := FirstRead.empty, dialOk := true, sendOk := true,
        startTime := 0, tunnelEvents := [], closeClientRaises := true,
        closeTargetRaises := false }).1

/-- Claim C5: forwarding fidelity of the relay loop. A nonempty chunk of
at most buffer-size bytes read from the client is appended, unmodified
and in order, to the stream written to the target within the same
iteration, before any further read happens, and nothing is written to
the client stream (and symmetrically for the target side); two
consecutive client chunks are delivered in order, concatenated. -/
theorem c5_forward_fidelity (buffer : Nat) (timeout : Int) :
    (∀ (st : TunnelState) (ev : TunnelEvent) (b : List Nat),
      ev.eAny = false →
      ¬ (ev.now - st.lastActivity > timeout) →
      ev.rClient = true → ev.rTarget = false →
      ev.clientRead = ReadRes.ok b →
      b ≠ [] → b.length ≤ buffer →
      ev.sendToTargetOk = true →
      tunnelStep timeout st ev = StepRes.cont
        { lastActivity := ev.now, sentToTarget := st.sentToTarget ++ b,
          sentToClient := st.sentToClient }) ∧
    (∀ (st : TunnelState) (ev : TunnelEvent) (b : List Nat),
      ev.eAny = false →
      ¬ (ev.now - st.lastActivity > timeout) →
      ev.rClient = false → ev.rTarget = true →
      ev.targetRead = ReadRes.ok b →
      b ≠ [] → b.length ≤ buffer →
      ev.sendToClientOk = true →
      tunnelStep timeout st ev = StepRes.cont
        { lastActivity := ev.now, sentToTarget := st.sentToTarget,
          sentToClient := st.sentToClient ++ b }) ∧
    (∀ (st : TunnelState) (ev1 ev2 : TunnelEvent) (b1 b2 : List Nat),
      ev1.eAny = false → ¬ (ev1.now - st.lastActivity > timeout) →
      ev1.rClient = true → ev1.rTarget = false →
      ev1.clientRead = ReadRes.ok b1 → b1 ≠ [] → b1.length ≤ buffer →
      ev1.sendToTargetOk = true →
      ev2.eAny = false → ¬ (ev2.now - ev1.now > timeout) →
      ev2.rClient = true → ev2.rTarget = false →
      ev2.clientRead = ReadRes.ok b2 → b2 ≠ [] → b2.length ≤ buffer →
      ev2.sendToTargetOk = true →
      tunnelRun timeout st [ev1, ev2] =
        ({ lastActivity := ev2.now, sentToTarget := st.sentToTarget ++ (b1 ++ b2),
           sentToClient := st.sentToClient }, none)) := by
  refine ⟨?_, ?_, ?_⟩
  · intro st ev b he ht hrc hrt hread hne _ hsend
    exact step_forward_client timeout st ev b he ht hrc hrt hread hne hsend
  · intro st ev b he ht hrc hrt hread hne _ hsend
    exact step_forward_target timeout st ev b he ht hrc hrt hread hne hsend
  · intro st ev1 ev2 b1 b2 he1 ht1 hrc1 hrt1 hread1 hne1 _ hsend1
      he2 ht2 hrc2 hrt2 hread2 hne2 _ hsend2
    rw [tunnelRun_cons,
      step_forward_client timeout st ev1 b1 he1 ht1 hrc1 hrt1 hread1 hne1 hsend1]
    show tunnelRun timeout _ [ev2] = _
    rw [tunnelRun_cons,
      step_forward_client timeout _ ev2 b2 he2 ht2 hrc2 hrt2 hread2 hne2 hsend2]
    rw [List.append_assoc]
    rfl

theorem c5_forward_fidelity_witness :
    tunnelStep 60 tunnelStart { zeroReadEv with clientRead := ReadRes.ok [1, 2, 3] }
      = StepRes.cont
          { lastActivity := 1, sentToTarget := [1, 2, 3], sentToClient := [] } ∧
    tunnelStep 60 tunnelStart
        { zeroReadEv with
            rClient := false, rTarget := true, targetRead := ReadRes.ok [7] }
      = StepRes.cont
          { lastActivity := 1, sentToTarget := [], sentToClient := [7] } ∧
    tunnelRun 60 tunnelStart
        [{ zeroReadEv with clientRead := ReadRes.ok [1, 2, 3] },
         { zeroReadEv with now := 2, clientRead := ReadRes.ok [4, 5] }]
      = ({ lastActivity := 2, sentToTarget := [1, 2, 3, 4, 5], sentToClient := [] },
         none) := by
  refine ⟨?_, ?_, ?_⟩
  · exact (c5_forward_fidelity 4096 60).1 tunnelStart
      { zeroReadEv with clientRead := ReadRes.ok [1, 2, 3] } [1, 2, 3]
      rfl (by decide) rfl rfl rfl (by decide) (by decide) rfl
  · exact (c5_forward_fidelity 4096 60).2.1 tunnelStart
      { zeroReadEv with
          rClient := false, rTarget := true, targetRead := ReadRes.ok [7] } [7]
      rfl (by decide) rfl rfl rfl (by decide) (by decide) rfl
  · exact (c5_forward_fidelity 4096 60).2.2 tunnelStart
      { zeroReadEv with clientRead := ReadRes.ok [1, 2, 3] }
      { zeroReadEv with now := 2, clientRead := ReadRes.ok [4, 5] }
      [1, 2, 3] [4, 5]
      rfl (by decide) rfl rfl rfl (by decide) (by decide) rfl
      rfl (by decide) rfl rfl rfl (by decide) (by decide) rfl

/-- Claim C6: on every exit path of a session (anything the environment
script can make the session do: empty first read, read exception,
decode failure, dial failure, handshake-send failure, any relay
outcome), a close is attempted on both handles, failure of one close
attempt never suppresses the other (closeFn performs both attempts
whatever the two injected failures), and nothing propagates to the
caller of run. -/
theorem c6_teardown_closes_both :
    (∀ (dh : Str) (dp timeout : Int) (sc : SessionScript),
      CloseAct.client ∈ (sessionRun dh dp timeout sc).closeActs ∧
      CloseAct.target ∈ (sessionRun dh dp timeout sc).closeActs ∧
      (sessionRun dh dp timeout sc).raised = false) ∧
    (∀ (a b : Bool), closeFn a b = [CloseAct.client, CloseAct.target]) := by
  constructor
  · intro dh dp timeout sc
    refine ⟨?_, ?_, rfl⟩
    · simp [sessionRun, closeFn, tryPass, closeCall]
    · simp [sessionRun, closeFn, tryPass, closeCall]
  · intro a b
    rfl

/-- Claim C8: a session whose first read returns zero bytes ends as a
normal, non-error termination with no dial attempt, no handshake write,
and no relay entered, and still attempts both closes. -/
theorem c8_empty_first_read (dh : Str) (dp timeout : Int) (sc : SessionScript)
    (h : sc.firstRead = FirstRead.empty) :
    (sessionRun dh dp timeout sc).dialAttempts = [] ∧
    (sessionRun dh dp timeout sc).handshakeSent = false ∧
    (sessionRun dh dp timeout sc).tunnelEntered = false ∧
    (sessionRun dh dp timeout sc).errorLogged = false ∧
    (sessionRun dh dp timeout sc).raised = false ∧
    (sessionRun dh dp timeout sc).closeActs
      = closeFn sc.closeClientRaises sc.closeTargetRaises := by
  refine ⟨?_, ?_, ?_, ?_, rfl, ?_⟩ <;>
    simp [sessionRun, sessionBody, h]

theorem c8_empty_first_read_witness :
    (sessionRun "127.0.0.1".data 22 60
      { firstRead := FirstRead.empty, dialOk := true, sendOk := true,
        startTime := 0, tunnelEvents := [], closeClientRaises := false,
        closeTargetRaises := true }).dialAttempts = [] ∧
    (sessionRun "127.0.0.1".data 22 60
      { firstRead := FirstRead.empty, dialOk := true, sendOk := true,
        startTime := 0, tunnelEvents := [], closeClientRaises := false,
        closeTargetRaises := true }).handshakeSent = false := by
  constructor
  · exact (c8_empty_first_read "127.0.0.1".data 22 60
      { firstRead := FirstRead.empty, dialOk := true, sendOk := true,
        startTime := 0, tunnelEvents := [], closeClientRaises := false,
        closeTargetRaises := true } rfl).1
  · exact (c8_empty_first_read "127.0.0.1".data 22 60
      { firstRead := FirstRead.empty, dialOk := true, sendOk := true,
        startTime := 0, tunnelEvents := [], closeClientRaises := false,
        closeTargetRaises := true } rfl).2.1

/-- Claim C9: the handshake text is only ever sent after a successful
dial; a failed dial ends the session with no handshake, no relay, and
at most the single dial attempt that failed; and whenever a dial is
attempted at all, it is exactly one attempt, at the target resolved
from the first chunk, with no fallback. -/
theorem c9_handshake_only_after_dial (dh : Str) (dp timeout : Int)
    (sc : SessionScript) :
    ((sessionRun dh dp timeout sc).handshakeSent = true → sc.dialOk = true) ∧
    (sc.dialOk = false →
      (sessionRun dh dp timeout sc).handshakeSent = false ∧
      (sessionRun dh dp timeout sc).tunnelEntered = false ∧
      (sessionRun dh dp timeout sc).dialAttempts.length ≤ 1) ∧
    ((sessionRun dh dp timeout sc).dialAttempts = [] ∨
      ∃ dec, sc.firstRead = FirstRead.chunk dec ∧
        (sessionRun dh dp timeout sc).dialAttempts
          = [resolve_target dec dh dp]) := by
  cases hfr : sc.firstRead with
  | empty =>
    refine ⟨?_, ?_, Or.inl ?_⟩ <;> simp [sessionRun, sessionBody, hfr]
  | exn =>
    refine ⟨?_, ?_, Or.inl ?_⟩ <;> simp [sessionRun, sessionBody, hfr]
  | chunk dec =>
    cases hd : sc.dialOk with
    | false =>
      refine ⟨?_, ?_, Or.inr ⟨dec, rfl, ?_⟩⟩ <;>
        simp [sessionRun, sessionBody, hfr, hd]
    | true =>
      cases hs : sc.sendOk with
      | false =>
        refine ⟨?_, ?_, Or.inr ⟨dec, rfl, ?_⟩⟩ <;>
          simp [sessionRun, sessionBody, hfr, hd, hs]
      | true =>
        refine ⟨?_, ?_, Or.inr ⟨dec, rfl, ?_⟩⟩ <;>
          simp [sessionRun, sessionBody, hfr, hd, hs]

theorem c9_handshake_only_after_dial_witness :
    (sessionRun "127.0.0.1".data 22 60
      { firstRead := FirstRead.chunk (some "X-Real-Host: h:9".data),
        dialOk := false, sendOk := true, startTime := 0, tunnelEvents := [],
        closeClientRaises := false, closeTargetRaises := false }).handshakeSent
      = false ∧
    ({ firstRead := FirstRead.chunk (some "X-Real-Host: h:9".data),
       dialOk := true, sendOk := true, startTime := 0, tunnelEvents := [],
       closeClientRaises := false, closeTargetRaises := false }
        : SessionScript).dialOk = true := by
  constructor
  · exact ((c9_handshake_only_after_dial "127.0.0.1".data 22 60
      { firstRead := FirstRead.chunk (some "X-Real-Host: h:9".data),
        dialOk := false, sendOk := true, startTime := 0, tunnelEvents := [],
        closeClientRaises := false, closeTargetRaises := false }).2.1 rfl).1
  · exact (c9_handshake_only_after_dial "127.0.0.1".data 22 60
      { firstRead := FirstRead.chunk (some "X-Real-Host: h:9".data),
        dialOk := true, sendOk := true, startTime := 0, tunnelEvents := [],
        closeClientRaises := false, closeTargetRaises := false }).1 rfl
